import Mathlib

/-!
Verification of the semantic-analysis and intermediate-code-generation core of
the mini-language compiler in `compiler.py`.  The Python classes `Type`,
`SymbolTable`, the AST node classes, `SemanticAnalyzer` and
`IntermediateCodeGenerator` are embedded shallowly below; mutable object state
(`self.errors`, `self.scopes`, `self.code`, counters) becomes explicit state
passing.
-/

namespace MiniLang

/-! ### Decimal rendering of numbers

Python renders numbers into diagnostics, temporaries (`f"t{n}"`) and labels
(`f"L{n}"`) with the standard decimal notation.  We embed that rendering as an
executable, fuel-based (hence kernel-reducible) decimal printer and verify a
parse round-trip, which gives injectivity of the rendering (needed to show
generated labels are distinct). -/

def digitChar : Nat → Char
  | 0 => '0' | 1 => '1' | 2 => '2' | 3 => '3' | 4 => '4'
  | 5 => '5' | 6 => '6' | 7 => '7' | 8 => '8' | _ => '9'

def digitVal : Char → Nat
  | '0' => 0 | '1' => 1 | '2' => 2 | '3' => 3 | '4' => 4
  | '5' => 5 | '6' => 6 | '7' => 7 | '8' => 8 | _ => 9

/-- Most-significant-digit-first decimal digits of `n`; the fuel argument only
serves structural termination and is always called with enough fuel. -/
def decDigitsAux : Nat → Nat → List Char
  | 0, _ => []
  | fuel + 1, n =>
      if n < 10 then [digitChar n]
      else decDigitsAux fuel (n / 10) ++ [digitChar (n % 10)]

/-- Decimal digit list of `n`, most significant digit first. -/
def decDigits (n : Nat) : List Char := decDigitsAux (n + 1) n

/-- Decimal rendering of a natural number, as Python `str(n)` / `f"{n}"`. -/
def natStr (n : Nat) : String := String.mk (decDigits n)

/-- Decimal rendering of an integer, as Python `str(i)`. -/
def intStr (i : Int) : String :=
  if i < 0 then "-" ++ natStr i.natAbs else natStr i.natAbs

def parseDigits (l : List Char) : Nat :=
  l.foldl (fun a c => 10 * a + digitVal c) 0

/-! ### The type model (`class Type` in `compiler.py`)

Python represents types as the strings `"int"`, `"float"`, `"string"`,
`"boolean"`, `"error"`; we use a five-constructor enumeration together with
`Ty.str` giving back the exact Python string (used inside diagnostics). -/

inductive Ty where
  | int
  | float
  | string
  | boolean
  | error
deriving DecidableEq, Repr, Fintype

def Ty.str : Ty → String
  | .int => "int"
  | .float => "float"
  | .string => "string"
  | .boolean => "boolean"
  | .error => "error"

/-- Embeds `Type.is_numeric`. -/
def Ty.is_numeric (type_name : Ty) : Bool :=
  type_name == Ty.int || type_name == Ty.float

/-- Embeds `Type.get_result_type` (result type of a binary operator). -/
def Ty.get_result_type (left_type right_type : Ty) (operator : String) : Ty :=
  if operator ∈ (["+", "-", "*", "/"] : List String) then
    if left_type == Ty.error || right_type == Ty.error then
      Ty.error
    else if left_type == Ty.string && right_type == Ty.string && operator == "+" then
      Ty.string
    else if !(left_type.is_numeric && right_type.is_numeric) then
      if operator == "+" && (left_type == Ty.string || right_type == Ty.string) then
        Ty.string
      else
        Ty.error
    else if left_type == Ty.float || right_type == Ty.float then
      Ty.float
    else
      Ty.int
  else if operator ∈ (["==", "!=", "<", ">", "<=", ">=", "&&", "||"] : List String) then
    if left_type == Ty.error || right_type == Ty.error then
      Ty.error
    else if operator ∈ (["==", "!="] : List String) then
      if (left_type.is_numeric && right_type.is_numeric)
          || (left_type == Ty.boolean && right_type == Ty.boolean)
          || (left_type == Ty.string && right_type == Ty.string) then
        Ty.boolean
      else
        Ty.error
    else if operator ∈ (["<", ">", "<=", ">="] : List String) then
      if left_type.is_numeric && right_type.is_numeric then
        Ty.boolean
      else if left_type == Ty.string && right_type == Ty.string then
        Ty.boolean
      else
        Ty.error
    else if operator ∈ (["&&", "||"] : List String) then
      if left_type == Ty.boolean && right_type == Ty.boolean then
        Ty.boolean
      else
        Ty.error
    else
      Ty.error
  else
    Ty.error

/-! ### Tokens and semantic errors

Lark tokens carry `value`, `line`, `column`; in every place the analyzer uses
a token these three fields are all it reads.  `SemanticError.toStr` embeds
`SemanticError.__str__` (note the Python truthiness test `if self.line and
self.column`: a `None` or a zero line/column yields the position-less
format). -/

structure Token where
  value : String
  line : Nat
  column : Nat
deriving DecidableEq, Repr

structure SemanticError where
  message : String
  line : Option Nat
  column : Option Nat
deriving DecidableEq, Repr

def SemanticError.toStr (e : SemanticError) : String :=
  match e.line, e.column with
  | some l, some c =>
      if l ≠ 0 ∧ c ≠ 0 then
        "Error semántico en línea " ++ natStr l ++ ", columna " ++ natStr c ++ ": " ++ e.message
      else
        "Error semántico: " ++ e.message
  | _, _ => "Error semántico: " ++ e.message

/-! ### The scoped symbol table (`class SymbolTable`)

Python keeps `self.scopes` as a nonempty list of dicts with the innermost
scope last, accessed only through `scopes[-1]`, `reversed(self.scopes)`,
`append` and `pop`.  We encode the same nonempty stack as the innermost scope
(`top`) plus the list of enclosing scopes (`rest`), ordered innermost-first;
the stack is nonempty by construction exactly as in the source (`[{}]`
initially, `exit_scope` refuses to pop the last scope).  A scope is an
association list keyed by the variable name; `declare` never inserts a
duplicate key into one scope, so it coincides with the Python dict.  The
`'node'` payload stored alongside the type is never read anywhere in the
source and is omitted. -/

def Scope := List (String × Ty)
deriving instance DecidableEq, Repr for Scope

def Scope.containsName (s : Scope) (n : String) : Bool :=
  s.any (fun p => p.1 == n)

def Scope.findName (s : Scope) (n : String) : Option Ty :=
  match s.find? (fun p => p.1 == n) with
  | some p => some p.2
  | none => none

structure SymbolTable where
  top : Scope
  rest : List Scope
deriving DecidableEq, Repr

/-- Embeds `SymbolTable.__init__`: `self.scopes = [{}]`. -/
def SymbolTable.init : SymbolTable := ⟨[], []⟩

/-- Embeds `SymbolTable.enter_scope`. -/
def SymbolTable.enter_scope (st : SymbolTable) : SymbolTable :=
  ⟨[], st.top :: st.rest⟩

/-- Embeds `SymbolTable.exit_scope`: pops unless only the global scope remains. -/
def SymbolTable.exit_scope (st : SymbolTable) : SymbolTable :=
  match st.rest with
  | r :: rs => ⟨r, rs⟩
  | [] => st

/-- Embeds `SymbolTable.declare`; raising `SemanticError` becomes `Except.error`. -/
def SymbolTable.declare (st : SymbolTable) (name : Token) (type_val : Ty) :
    Except SemanticError SymbolTable :=
  if st.top.containsName name.value then
    .error ⟨"Variable '" ++ name.value ++ "' ya declarada en este ámbito",
            some name.line, some name.column⟩
  else
    .ok ⟨(name.value, type_val) :: st.top, st.rest⟩

/-- Innermost-to-outermost search over the scope stack, as the `for scope in
reversed(self.scopes)` loop of `lookup`. -/
def findInScopes : List Scope → String → Option Ty
  | [], _ => none
  | s :: ss, n =>
      match s.findName n with
      | some t => some t
      | none => findInScopes ss n

/-- Embeds `SymbolTable.lookup`. -/
def SymbolTable.lookup (st : SymbolTable) (name : Token) : Except SemanticError Ty :=
  match findInScopes (st.top :: st.rest) name.value with
  | some t => .ok t
  | none =>
      .error ⟨"Variable '" ++ name.value ++ "' no declarada",
              some name.line, some name.column⟩

/-- Embeds `SymbolTable.update` (present in the source, never called by the
analyzer): it only verifies that the name is declared somewhere. -/
def SymbolTable.update (st : SymbolTable) (name : Token) : Except SemanticError Unit :=
  match findInScopes (st.top :: st.rest) name.value with
  | some _ => .ok ()
  | none =>
      .error ⟨"Variable '" ++ name.value ++ "' no declarada antes de la asignación",
              some name.line, some name.column⟩

/-! ### The abstract syntax tree

One inductive with a constructor per AST class of `compiler.py`.  Fields named
as in the Python constructors; the derived `name` fields (always
`name_token.value`) are recomputed from the token.  `Option` fields are the
ones Python defaults to `None` and guards with truthiness tests
(`initial_value`, `else_branch`, and the three `for`-header slots).  Literal
values only ever flow into the generated `ASSIGN` text through `str(...)`, so
they are carried with their exact rendering: an integer, a float's decimal
text, or the string contents. -/

inductive LitValue where
  | vint (n : Int)
  | vfloat (text : String)
  | vstr (s : String)
deriving DecidableEq, Repr

/-- Python `str(node.value)` for a literal's value. -/
def LitValue.str : LitValue → String
  | .vint n => intStr n
  | .vfloat t => t
  | .vstr s => s

inductive ASTNode where
  | Program (statements : List ASTNode)
  | VarDeclaration (name_token : Token) (initial_value : Option ASTNode)
  | Assignment (name_token : Token) (value : ASTNode)
  | IfStatement (condition : ASTNode) (then_branch : ASTNode) (else_branch : Option ASTNode)
  | WhileLoop (condition : ASTNode) (body : ASTNode)
  | ForLoop (init : Option ASTNode) (condition : Option ASTNode)
      (update : Option ASTNode) (body : ASTNode)
  | PrintStatement (expressions : List ASTNode)
  | InputStatement (variable_token : Token)
  | Block (statements : List ASTNode)
  | BinaryOp (left : ASTNode) (operator_token : Token) (right : ASTNode)
  | UnaryOp (operator_token : Token) (operand : ASTNode)
  | Literal (value : LitValue) (type : Ty) (token : Token)
  | Variable (name_token : Token)
  | FunctionCall (name_token : Token) (arguments : List ASTNode)

/-- Python `type(node).__name__`. -/
def nodeTypeName : ASTNode → String
  | .Program _ => "Program"
  | .VarDeclaration _ _ => "VarDeclaration"
  | .Assignment _ _ => "Assignment"
  | .IfStatement _ _ _ => "IfStatement"
  | .WhileLoop _ _ => "WhileLoop"
  | .ForLoop _ _ _ _ => "ForLoop"
  | .PrintStatement _ => "PrintStatement"
  | .InputStatement _ => "InputStatement"
  | .Block _ => "Block"
  | .BinaryOp _ _ _ => "BinaryOp"
  | .UnaryOp _ _ => "UnaryOp"
  | .Literal _ _ _ => "Literal"
  | .Variable _ => "Variable"
  | .FunctionCall _ _ => "FunctionCall"

/-- Embeds the token-recovery chain of the condition checks:
`getattr(c, 'token', None) or getattr(c, 'name_token', None) or
getattr(c, 'operator_token', None)`. -/
def condToken : ASTNode → Option Token
  | .Literal _ _ token => some token
  | .Variable name_token => some name_token
  | .VarDeclaration name_token _ => some name_token
  | .Assignment name_token _ => some name_token
  | .BinaryOp _ operator_token _ => some operator_token
  | .UnaryOp operator_token _ => some operator_token
  | .FunctionCall name_token _ => some name_token
  | _ => none

/-! ### The semantic analyzer (`class SemanticAnalyzer`)

The mutable analyzer object (`self.symbol_table`, `self.errors`) becomes the
state `AState` threaded through the traversal.  In the source every
`SemanticError` raised by `declare`/`lookup` is caught by a `try/except` at
its own call site and appended to `self.errors`, so the traversal itself is a
total function; the additional `try/except` inside `analyze` never fires (its
generic-`Exception` arm, together with the `current_node` bookkeeping that
only feeds it, is dead code for well-formed trees and is not modeled). -/

structure AState where
  symtab : SymbolTable
  errors : List String
deriving DecidableEq, Repr

def AState.init : AState := ⟨SymbolTable.init, []⟩

/-- Appends one diagnostic, as `self.errors.append(...)`. -/
def AState.addErr (st : AState) (m : String) : AState :=
  { st with errors := st.errors ++ [m] }

/-- Python `token.line if token else '?'` rendering for the optional
condition token. -/
def optLineStr : Option Token → String
  | some t => natStr t.line
  | none => "?"

def optColStr : Option Token → String
  | some t => natStr t.column
  | none => "?"

/-- Diagnostic text for a non-boolean, non-numeric condition (`kind` is
`"if"`, `"while"` or `"for"`, matching the three copies in the source). -/
def condErrMsg (kind : String) (tok : Option Token) (t : Ty) : String :=
  "Error de tipo en línea " ++ optLineStr tok ++ ", col " ++ optColStr tok
    ++ ": condición de " ++ kind ++ " debe ser booleana o numérica, no '" ++ t.str ++ "'"

/-- Embeds `SemanticAnalyzer._is_assignment_compatible`. -/
def is_assignment_compatible (var_type expr_type : Ty) : Bool :=
  if var_type == expr_type then true
  else if var_type == Ty.float && expr_type == Ty.int then true
  else false

mutual

/-- Embeds `SemanticAnalyzer._analyze_node` together with the per-class
`_analyze_*` visitors; nodes with no visitor hit `_analyze_default` (no-op). -/
def analyzeNode : ASTNode → AState → AState
  | .Program statements, st => analyzeList statements st
  | .VarDeclaration name_token (some iv), st₀ =>
      let q := getExpressionType iv st₀
      let var_type := if q.1 ≠ Ty.error then q.1 else Ty.error
      if var_type ≠ Ty.error then
        match q.2.symtab.declare name_token var_type with
        | .ok symtab' => { q.2 with symtab := symtab' }
        | .error e => q.2.addErr e.toStr
      else q.2
  | .VarDeclaration name_token none, st =>
      match st.symtab.declare name_token Ty.int with
      | .ok symtab' => { st with symtab := symtab' }
      | .error e => st.addErr e.toStr
  | .Assignment name_token value, st =>
      match st.symtab.lookup name_token with
      | .error e => st.addErr e.toStr
      | .ok var_type =>
          let q := getExpressionType value st
          if var_type ≠ Ty.error ∧ q.1 ≠ Ty.error then
            if is_assignment_compatible var_type q.1 then q.2
            else
              q.2.addErr ("Error de tipo en línea " ++ natStr name_token.line
                ++ ", col " ++ natStr name_token.column
                ++ ": no se puede asignar tipo '" ++ q.1.str ++ "' a variable '"
                ++ name_token.value ++ "' de tipo '" ++ var_type.str ++ "'")
          else q.2
  | .IfStatement condition then_branch else_branch, st =>
      let q := getExpressionType condition st
      let st :=
        if (q.1 ≠ Ty.boolean ∧ q.1 ≠ Ty.int ∧ q.1 ≠ Ty.float) ∧ q.1 ≠ Ty.error then
          q.2.addErr (condErrMsg "if" (condToken condition) q.1)
        else q.2
      let st := analyzeNode then_branch st
      analyzeElse else_branch st
  | .WhileLoop condition body, st =>
      let q := getExpressionType condition st
      let st :=
        if (q.1 ≠ Ty.boolean ∧ q.1 ≠ Ty.int ∧ q.1 ≠ Ty.float) ∧ q.1 ≠ Ty.error then
          q.2.addErr (condErrMsg "while" (condToken condition) q.1)
        else q.2
      analyzeNode body st
  | .ForLoop init condition update body, st =>
      let st := { st with symtab := st.symtab.enter_scope }
      let st := analyzeForInit init st
      let st := analyzeForCond condition st
      let st := analyzeForUpdate update st
      let st := analyzeNode body st
      { st with symtab := st.symtab.exit_scope }
  | .PrintStatement expressions, st => analyzeExprList expressions st
  | .InputStatement variable_token, st =>
      match st.symtab.lookup variable_token with
      | .ok _ => st
      | .error e => st.addErr e.toStr
  | .Block statements, st =>
      let st := { st with symtab := st.symtab.enter_scope }
      let st := analyzeList statements st
      { st with symtab := st.symtab.exit_scope }
  | _, st => st

/-- Embeds the `if node.else_branch:` tail of `_analyze_IfStatement`. -/
def analyzeElse : Option ASTNode → AState → AState
  | some e, st => analyzeNode e st
  | none, st => st

/-- Embeds `if node.init: self._analyze_node(node.init)` of `_analyze_ForLoop`. -/
def analyzeForInit : Option ASTNode → AState → AState
  | some i, st => analyzeNode i st
  | none, st => st

/-- Embeds the `if node.condition:` block of `_analyze_ForLoop`. -/
def analyzeForCond : Option ASTNode → AState → AState
  | some c, st =>
      let q := getExpressionType c st
      if (q.1 ≠ Ty.boolean ∧ q.1 ≠ Ty.int ∧ q.1 ≠ Ty.float) ∧ q.1 ≠ Ty.error then
        q.2.addErr (condErrMsg "for" (condToken c) q.1)
      else q.2
  | none, st => st

/-- Embeds `if node.update: self._get_expression_type(node.update)`. -/
def analyzeForUpdate : Option ASTNode → AState → AState
  | some u, st => (getExpressionType u st).2
  | none, st => st

def analyzeList : List ASTNode → AState → AState
  | [], st => st
  | n :: ns, st => analyzeList ns (analyzeNode n st)

def analyzeExprList : List ASTNode → AState → AState
  | [], st => st
  | e :: es, st => analyzeExprList es (getExpressionType e st).2

/-- Embeds `SemanticAnalyzer._get_expression_type`. -/
def getExpressionType : ASTNode → AState → Ty × AState
  | .Literal _ type _, st => (type, st)
  | .Variable name_token, st =>
      match st.symtab.lookup name_token with
      | .ok t => (t, st)
      | .error e => (Ty.error, st.addErr e.toStr)
  | .BinaryOp left operator_token right, st =>
      let ql := getExpressionType left st
      let qr := getExpressionType right ql.2
      if ql.1 ≠ Ty.error ∧ qr.1 ≠ Ty.error then
        let op_result_type := Ty.get_result_type ql.1 qr.1 operator_token.value
        if op_result_type = Ty.error then
          (Ty.error, qr.2.addErr ("Error de tipo en línea " ++ natStr operator_token.line
            ++ ", col " ++ natStr operator_token.column
            ++ ": operador '" ++ operator_token.value ++ "' incompatible con tipos '"
            ++ ql.1.str ++ "' y '" ++ qr.1.str ++ "'"))
        else (op_result_type, qr.2)
      else (Ty.error, qr.2)
  | .UnaryOp operator_token operand, st =>
      let q := getExpressionType operand st
      if q.1 ≠ Ty.error then
        if operator_token.value = "!" then
          if q.1 = Ty.boolean ∨ q.1.is_numeric then (Ty.boolean, q.2)
          else
            (Ty.error, q.2.addErr ("Error de tipo en línea " ++ natStr operator_token.line
              ++ ", col " ++ natStr operator_token.column
              ++ ": operador '!' incompatible con tipo '" ++ q.1.str ++ "'"))
        else if operator_token.value = "-" then
          if q.1.is_numeric then (q.1, q.2)
          else
            (Ty.error, q.2.addErr ("Error de tipo en línea " ++ natStr operator_token.line
              ++ ", col " ++ natStr operator_token.column
              ++ ": operador '-' incompatible con tipo '" ++ q.1.str ++ "'"))
        else (Ty.error, q.2)
      else (Ty.error, q.2)
  | .FunctionCall name_token arguments, st =>
      let q := getExpressionTypeList arguments st
      if Ty.error ∈ q.1 then (Ty.error, q.2)
      else if name_token.value = "len" then
        if arguments.length ≠ 1 then
          (Ty.error, q.2.addErr ("Error de argumento en línea " ++ natStr name_token.line
            ++ ", col " ++ natStr name_token.column
            ++ ": función 'len' espera 1 argumento, recibió " ++ natStr arguments.length))
        else if q.1.headD Ty.error ≠ Ty.string then
          (Ty.error, q.2.addErr ("Error de tipo en línea " ++ natStr name_token.line
            ++ ", col " ++ natStr name_token.column
            ++ ": función 'len' espera un string, recibió '" ++ (q.1.headD Ty.error).str ++ "'"))
        else (Ty.int, q.2)
      else
        (Ty.error, q.2.addErr ("Error semántico en línea " ++ natStr name_token.line
          ++ ", col " ++ natStr name_token.column
          ++ ": función '" ++ name_token.value ++ "' no definida"))
  | other, st =>
      (Ty.error, st.addErr ("Error interno: Tipo de nodo de expresión desconocido: "
        ++ nodeTypeName other))

def getExpressionTypeList : List ASTNode → AState → List Ty × AState
  | [], st => ([], st)
  | e :: es, st =>
      let q := getExpressionType e st
      let qs := getExpressionTypeList es q.2
      (q.1 :: qs.1, qs.2)

end

/-- Embeds `SemanticAnalyzer.analyze` on a fresh analyzer instance: runs the
traversal and reports `len(self.errors) == 0` alongside the collected,
ordered diagnostics list.  The surrounding `try/except` of the source cannot
fire: every raise site is already handled inside the traversal, which is
therefore a total function. -/
def analyze (ast : ASTNode) : Bool × List String :=
  let st := analyzeNode ast AState.init
  (st.errors.length == 0, st.errors)

/-! ### The intermediate-code generator (`class IntermediateCodeGenerator`)

The generator object owns an append-only instruction list and two counters;
these become `GState`.  The fields `tlog`/`llog` are ghost instrumentation not
present in the source: they record, in order, the counter value consumed by
each `_new_temp`/`_new_label` call and influence nothing else, letting us
state that ids are handed out strictly increasingly from zero. -/

structure GState where
  code : List String
  temp_counter : Nat
  label_counter : Nat
  tlog : List Nat
  llog : List Nat
deriving DecidableEq, Repr

/-- Embeds `IntermediateCodeGenerator.__init__`. -/
def GState.init : GState := ⟨[], 0, 0, [], []⟩

/-- Embeds `self.code.append(...)`. -/
def GState.emit (st : GState) (instr : String) : GState :=
  { st with code := st.code ++ [instr] }

/-- Embeds `_new_temp`: returns `f"t{self.temp_counter}"` and bumps the counter. -/
def new_temp (st : GState) : String × GState :=
  ("t" ++ natStr st.temp_counter,
   { st with temp_counter := st.temp_counter + 1, tlog := st.tlog ++ [st.temp_counter] })

/-- Embeds `_new_label`: returns `f"L{self.label_counter}"` and bumps the counter. -/
def new_label (st : GState) : String × GState :=
  ("L" ++ natStr st.label_counter,
   { st with label_counter := st.label_counter + 1, llog := st.llog ++ [st.label_counter] })

/-- Embeds the `op_map` dictionary of `_generate_BinaryOp`; a miss is the
`"UNKNOWN_OP"` default, after which the source returns `None`. -/
def op_map (operator : String) : Option String :=
  if operator = "+" then some "ADD"
  else if operator = "-" then some "SUB"
  else if operator = "*" then some "MUL"
  else if operator = "/" then some "DIV"
  else if operator = "==" then some "EQ"
  else if operator = "!=" then some "NEQ"
  else if operator = "<" then some "LT"
  else if operator = ">" then some "GT"
  else if operator = "<=" then some "LTE"
  else if operator = ">=" then some "GTE"
  else if operator = "&&" then some "AND"
  else if operator = "||" then some "OR"
  else none

mutual

/-- Embeds `_generate_node` with the per-class `_generate_*` visitors.  The
returned `Option String` is the Python return value: the temporary holding an
expression's value, or `None` (statements, and the defensive short-circuit
paths).  Python's truthiness tests `if expr_temp:` / `if not condition_temp:`
are the `Option` matches (a generated temporary is never the empty string). -/
def generateNode : ASTNode → GState → Option String × GState
  | .Program statements, st => (none, generateList statements st)
  | .VarDeclaration name_token (some iv), st =>
      let q := generateNode iv st
      (none,
        match q.1 with
        | some expr_temp => q.2.emit ("ASSIGN " ++ name_token.value ++ ", " ++ expr_temp)
        | none => q.2)
  | .VarDeclaration _ none, st => (none, st)
  | .Assignment name_token value, st =>
      let q := generateNode value st
      (none,
        match q.1 with
        | some expr_temp => q.2.emit ("ASSIGN " ++ name_token.value ++ ", " ++ expr_temp)
        | none => q.2)
  | .IfStatement condition then_branch (some els), st =>
      let q := generateNode condition st
      match q.1 with
      | none => (none, q.2)
      | some condition_temp =>
          let pe := new_label q.2
          let pn := new_label pe.2
          let st := pn.2.emit ("IF_FALSE " ++ condition_temp ++ " GOTO " ++ pe.1)
          let st := (generateNode then_branch st).2
          let st := st.emit ("GOTO " ++ pn.1)
          let st := st.emit ("LABEL " ++ pe.1)
          let st := (generateNode els st).2
          (none, st.emit ("LABEL " ++ pn.1))
  | .IfStatement condition then_branch none, st =>
      let q := generateNode condition st
      match q.1 with
      | none => (none, q.2)
      | some condition_temp =>
          let pe := new_label q.2
          let st := pe.2.emit ("IF_FALSE " ++ condition_temp ++ " GOTO " ++ pe.1)
          let st := (generateNode then_branch st).2
          (none, st.emit ("LABEL " ++ pe.1))
  | .WhileLoop condition body, st =>
      let ps := new_label st
      let pn := new_label ps.2
      let st := pn.2.emit ("LABEL " ++ ps.1)
      let q := generateNode condition st
      match q.1 with
      | none => (none, q.2)
      | some condition_temp =>
          let st := q.2.emit ("IF_FALSE " ++ condition_temp ++ " GOTO " ++ pn.1)
          let st := (generateNode body st).2
          let st := st.emit ("GOTO " ++ ps.1)
          (none, st.emit ("LABEL " ++ pn.1))
  | .ForLoop init condition update body, st =>
      let ps := new_label st
      let pc := new_label ps.2
      let pu := new_label pc.2
      let pe := new_label pu.2
      let st := optGen init pe.2
      let st := st.emit ("GOTO " ++ pc.1)
      let st := st.emit ("LABEL " ++ ps.1)
      let st := (generateNode body st).2
      let st := st.emit ("LABEL " ++ pu.1)
      let st := optGen update st
      let st := st.emit ("LABEL " ++ pc.1)
      generateForTail condition ps.1 pe.1 st
  | .PrintStatement expressions, st => (none, generatePrints expressions st)
  | .InputStatement variable_token, st =>
      (none, st.emit ("INPUT " ++ variable_token.value))
  | .Block statements, st => (none, generateList statements st)
  | .Literal value type _, st =>
      let p := new_temp st
      let value_repr :=
        if type == Ty.string then "\"" ++ value.str ++ "\"" else value.str
      (some p.1, p.2.emit ("ASSIGN " ++ p.1 ++ ", " ++ value_repr))
  | .Variable name_token, st =>
      let p := new_temp st
      (some p.1, p.2.emit ("ASSIGN " ++ p.1 ++ ", " ++ name_token.value))
  | .BinaryOp left operator_token right, st =>
      let ql := generateNode left st
      let qr := generateNode right ql.2
      match ql.1, qr.1 with
      | some left_temp, some right_temp =>
          let p := new_temp qr.2
          match op_map operator_token.value with
          | none => (none, p.2)
          | some op_code =>
              (some p.1,
               p.2.emit (op_code ++ " " ++ p.1 ++ ", " ++ left_temp ++ ", " ++ right_temp))
      | _, _ => (none, qr.2)
  | .UnaryOp operator_token operand, st =>
      let q := generateNode operand st
      match q.1 with
      | none => (none, q.2)
      | some operand_temp =>
          let p := new_temp q.2
          if operator_token.value = "!" then
            (some p.1, p.2.emit ("NOT " ++ p.1 ++ ", " ++ operand_temp))
          else if operator_token.value = "-" then
            (some p.1, p.2.emit ("NEG " ++ p.1 ++ ", " ++ operand_temp))
          else (none, p.2)
  | .FunctionCall name_token arguments, st =>
      let q := generateArgs arguments st
      match q.1 with
      | none => (none, q.2)
      | some arg_temps =>
          let p := new_temp q.2
          let args_str := String.intercalate ", " arg_temps
          (some p.1,
           p.2.emit ("CALL " ++ p.1 ++ ", " ++ name_token.value
             ++ (if args_str ≠ "" then ", " else "") ++ args_str))

def generateList : List ASTNode → GState → GState
  | [], st => st
  | n :: ns, st => generateList ns (generateNode n st).2

def generatePrints : List ASTNode → GState → GState
  | [], st => st
  | e :: es, st =>
      let q := generateNode e st
      let st :=
        match q.1 with
        | some expr_temp => q.2.emit ("PRINT " ++ expr_temp)
        | none => q.2
      generatePrints es st

/-- Embeds the argument loop of `_generate_FunctionCall`: the first argument
that yields no temporary aborts the call (later arguments are not lowered). -/
def generateArgs : List ASTNode → GState → Option (List String) × GState
  | [], st => (some [], st)
  | a :: as, st =>
      let q := generateNode a st
      match q.1 with
      | none => (none, q.2)
      | some t =>
          let qs := generateArgs as q.2
          match qs.1 with
          | none => (none, qs.2)
          | some ts => (some (t :: ts), qs.2)

/-- Embeds the `if node.init:` / `if node.update:` guarded generation of the
optional `for`-header parts. -/
def optGen : Option ASTNode → GState → GState
  | some n, st => (generateNode n st).2
  | none, st => st

/-- Embeds the trailing `if node.condition:` branch of `_generate_ForLoop`:
the single condition-check site (`IF_TRUE … GOTO start`, or an unconditional
`GOTO start` when the condition slot is empty), followed by the end label. -/
def generateForTail : Option ASTNode → String → String → GState → Option String × GState
  | some c, start_label, end_label, st =>
      let q := generateNode c st
      match q.1 with
      | none => (none, q.2)
      | some condition_temp =>
          let st := q.2.emit ("IF_TRUE " ++ condition_temp ++ " GOTO " ++ start_label)
          (none, st.emit ("LABEL " ++ end_label))
  | none, start_label, end_label, st =>
      let st := st.emit ("GOTO " ++ start_label)
      (none, st.emit ("LABEL " ++ end_label))

end

/-- Embeds `IntermediateCodeGenerator.generate` on a fresh generator
instance (both counters restart at zero). -/
def generate (ast : ASTNode) : List String :=
  ((generateNode ast GState.init).2).code

/-! ### Derived notions used by the statements below -/

/-- The scope stack as searched by `lookup`, innermost first. -/
def SymbolTable.allScopes (st : SymbolTable) : List Scope := st.top :: st.rest

/-- The `SemanticError` that `lookup` raises for an undeclared variable. -/
def undeclaredError (name : Token) : SemanticError :=
  ⟨"Variable '" ++ name.value ++ "' no declarada", some name.line, some name.column⟩

/-- The instructions that generating `n` from `st` appends to `st.code`
(generation only ever appends; see `generateNode_code`). -/
def codeDelta (n : ASTNode) (st : GState) : List String :=
  (((generateNode n st).2).code).drop st.code.length

def optCodeDelta : Option ASTNode → GState → List String
  | some n, st => codeDelta n st
  | none, _ => []

/-- The label string `f"L{n}"`. -/
def labelName (n : Nat) : String := "L" ++ natStr n

/-- The temporary string `f"t{n}"`. -/
def tempName (n : Nat) : String := "t" ++ natStr n

/-- Generator state at which the then-branch of an `IfStatement` with an
else-branch is lowered: after the condition (final state `st1`), the two
label allocations, and the `IF_FALSE` emission. -/
def ifThenState (t : String) (st1 : GState) : GState :=
  ((new_label (new_label st1).2).2).emit ("IF_FALSE " ++ t ++ " GOTO " ++ (new_label st1).1)

/-- Generator state at which the else-branch of an `IfStatement` is lowered:
after the then-branch and the `GOTO end; LABEL else` emissions. -/
def ifElseState (t : String) (st1 : GState) (then_branch : ASTNode) : GState :=
  (((generateNode then_branch (ifThenState t st1)).2).emit
      ("GOTO " ++ (new_label (new_label st1).2).1)).emit ("LABEL " ++ (new_label st1).1)

/-- Counterpart of `ifThenState` for an `IfStatement` without an else-branch:
only one label is allocated and it serves as both targets. -/
def ifThenStateNoElse (t : String) (st1 : GState) : GState :=
  ((new_label st1).2).emit ("IF_FALSE " ++ t ++ " GOTO " ++ (new_label st1).1)

/-- Generator state of a `ForLoop` right after its four label allocations
(start, cond, update, end — ids `lc`, `lc+1`, `lc+2`, `lc+3`). -/
def forLabelsState (st : GState) : GState :=
  (new_label (new_label (new_label (new_label st).2).2).2).2

/-- Generator state at which a `ForLoop`'s body is lowered: after the labels,
the init part, and the `GOTO cond; LABEL start` emissions. -/
def forPreBodyState (init : Option ASTNode) (st : GState) : GState :=
  ((optGen init (forLabelsState st)).emit
      ("GOTO " ++ (new_label (new_label st).2).1)).emit ("LABEL " ++ (new_label st).1)

/-- Generator state at which a `ForLoop`'s update part is lowered. -/
def forPreUpdateState (init : Option ASTNode) (body : ASTNode) (st : GState) : GState :=
  ((generateNode body (forPreBodyState init st)).2).emit
    ("LABEL " ++ (new_label (new_label (new_label st).2).2).1)

/-- Generator state at which a `ForLoop`'s condition is lowered. -/
def forPreCondState (init update : Option ASTNode) (body : ASTNode) (st : GState) : GState :=
  (optGen update (forPreUpdateState init body st)).emit
    ("LABEL " ++ (new_label (new_label st).2).1)

/-- Ghost-log invariant: the ids consumed so far are exactly `0, 1, …,
counter-1`, in that order. -/
def okLogs (st : GState) : Prop :=
  st.tlog = List.range st.temp_counter ∧ st.llog = List.range st.label_counter

/-- Restates, word for word, the arithmetic result-type rule claimed by the
specification, to be compared against the source's `Ty.get_result_type`. -/
def arithResultSpec (l r : Ty) (op : String) : Ty :=
  if l = Ty.error ∨ r = Ty.error then Ty.error
  else if l = Ty.string ∧ r = Ty.string ∧ op = "+" then Ty.string
  else if ((l = Ty.string ∧ r ≠ Ty.string) ∨ (l ≠ Ty.string ∧ r = Ty.string)) ∧ op = "+" then
    Ty.string
  else if (l = Ty.int ∨ l = Ty.float) ∧ (r = Ty.int ∨ r = Ty.float) then
    if l = Ty.float ∨ r = Ty.float then Ty.float else Ty.int
  else Ty.error

/-- Concrete two-statement program: `x` is declared with an error-typed
initializer (the undeclared variable `y`), then used by an `input`
statement. -/
def c1Program : ASTNode :=
  ASTNode.Program
    [ASTNode.VarDeclaration ⟨"x", 1, 5⟩ (some (ASTNode.Variable ⟨"y", 1, 9⟩)),
     ASTNode.InputStatement ⟨"x", 2, 1⟩]

/-- Holds when `st'.code` extends `st.code` on the right: the generator only
ever appends instructions. -/
def GExtends (st st' : GState) : Prop := ∃ d, st'.code = st.code ++ d

/-- Holds when `st'.errors` extends `st.errors` on the right: the analyzer
only ever appends diagnostics. -/
def AErrExtends (st st' : AState) : Prop := ∃ d, st'.errors = st.errors ++ d

/-! ## Supporting lemmas -/

theorem digitVal_digitChar (d : Nat) (h : d < 10) : digitVal (digitChar d) = d := by
  interval_cases d <;> rfl

theorem parseDigits_append (l : List Char) (c : Char) :
    parseDigits (l ++ [c]) = 10 * parseDigits l + digitVal c := by
  simp [parseDigits, List.foldl_append]

theorem parse_decDigitsAux (fuel : Nat) : ∀ n, n < fuel →
    parseDigits (decDigitsAux fuel n) = n := by
  induction fuel with
  | zero => intro n h; omega
  | succ fuel ih =>
      intro n h
      rw [decDigitsAux]
      by_cases h10 : n < 10
      · simp only [if_pos h10, parseDigits, List.foldl_cons, List.foldl_nil]
        simpa using digitVal_digitChar n h10
      · have hd : n / 10 < fuel :=
          lt_of_lt_of_le (Nat.div_lt_self (by omega) (by omega)) (by omega)
        rw [if_neg h10, parseDigits_append, ih _ hd,
            digitVal_digitChar (n % 10) (Nat.mod_lt _ (by omega))]
        omega

theorem parse_decDigits (n : Nat) : parseDigits (decDigits n) = n :=
  parse_decDigitsAux (n + 1) n (Nat.lt_succ_self n)

theorem natStr_injective {m n : Nat} (h : natStr m = natStr n) : m = n := by
  have hd : decDigits m = decDigits n := congrArg String.data h
  calc m = parseDigits (decDigits m) := (parse_decDigits m).symm
    _ = parseDigits (decDigits n) := by rw [hd]
    _ = n := parse_decDigits n

theorem labelName_injective {m n : Nat} (h : labelName m = labelName n) : m = n := by
  apply natStr_injective
  have hd := congrArg String.data h
  simp only [labelName, String.data_append] at hd
  exact congrArg String.mk (List.append_cancel_left hd)

theorem labelName_ne {m n : Nat} (h : m ≠ n) : labelName m ≠ labelName n :=
  fun he => h (labelName_injective he)

theorem gext_refl (st : GState) : GExtends st st := ⟨[], by simp⟩

theorem gext_trans {a b c : GState} (h1 : GExtends a b) (h2 : GExtends b c) :
    GExtends a c := by
  obtain ⟨d1, h1⟩ := h1
  obtain ⟨d2, h2⟩ := h2
  exact ⟨d1 ++ d2, by simp [h2, h1]⟩

theorem gext_emit (st : GState) (s : String) : GExtends st (st.emit s) :=
  ⟨[s], rfl⟩

theorem gext_new_temp (st : GState) : GExtends st (new_temp st).2 :=
  ⟨[], by simp [new_temp]⟩

theorem gext_new_label (st : GState) : GExtends st (new_label st).2 :=
  ⟨[], by simp [new_label]⟩

mutual

theorem generateNode_gext : ∀ (n : ASTNode) (st : GState),
    GExtends st (generateNode n st).2
  | .Program statements, st => by
      simpa [generateNode] using generateList_gext statements st
  | .VarDeclaration name_token (some iv), st => by
      have h := generateNode_gext iv st
      simp only [generateNode]
      split
      · simpa using gext_trans h (gext_emit _ _)
      · simpa using h
  | .VarDeclaration name_token none, st => by
      simpa [generateNode] using gext_refl st
  | .Assignment name_token value, st => by
      have h := generateNode_gext value st
      simp only [generateNode]
      split
      · simpa using gext_trans h (gext_emit _ _)
      · simpa using h
  | .IfStatement condition then_branch (some els), st => by
      have h := generateNode_gext condition st
      simp only [generateNode]
      split
      · simpa using h
      · simpa using
          gext_trans (gext_trans (gext_trans (gext_trans (gext_trans (gext_trans
            (gext_trans (gext_trans h (gext_new_label _)) (gext_new_label _))
            (gext_emit _ _)) (generateNode_gext then_branch _)) (gext_emit _ _))
            (gext_emit _ _)) (generateNode_gext els _)) (gext_emit _ _)
  | .IfStatement condition then_branch none, st => by
      have h := generateNode_gext condition st
      simp only [generateNode]
      split
      · simpa using h
      · simpa using
          gext_trans (gext_trans (gext_trans (gext_trans h (gext_new_label _))
            (gext_emit _ _)) (generateNode_gext then_branch _)) (gext_emit _ _)
  | .WhileLoop condition body, st => by
      simp only [generateNode]
      split
      · simpa using
          gext_trans (gext_trans (gext_trans (gext_new_label _) (gext_new_label _))
            (gext_emit _ _)) (generateNode_gext condition _)
      · simpa using
          gext_trans (gext_trans (gext_trans (gext_trans (gext_trans (gext_trans
            (gext_trans (gext_new_label _) (gext_new_label _)) (gext_emit _ _))
            (generateNode_gext condition _)) (gext_emit _ _)) (generateNode_gext body _))
            (gext_emit _ _)) (gext_emit _ _)
  | .ForLoop init condition update body, st => by
      simpa [generateNode] using
        gext_trans
          (gext_trans (gext_trans (gext_trans (gext_trans (gext_trans (gext_trans
            (gext_trans (gext_trans (gext_trans (gext_trans (gext_new_label st)
            (gext_new_label _)) (gext_new_label _)) (gext_new_label _)) (optGen_gext init _))
            (gext_emit _ _)) (gext_emit _ _)) (generateNode_gext body _)) (gext_emit _ _))
            (optGen_gext update _)) (gext_emit _ _))
          (generateForTail_gext condition _ _ _)
  | .PrintStatement expressions, st => by
      simpa [generateNode] using generatePrints_gext expressions st
  | .InputStatement variable_token, st => by
      simpa [generateNode] using gext_emit st _
  | .Block statements, st => by
      simpa [generateNode] using generateList_gext statements st
  | .Literal value type token, st => by
      simpa [generateNode] using gext_trans (gext_new_temp st) (gext_emit _ _)
  | .Variable name_token, st => by
      simpa [generateNode] using gext_trans (gext_new_temp st) (gext_emit _ _)
  | .BinaryOp left operator_token right, st => by
      have h := gext_trans (generateNode_gext left st) (generateNode_gext right _)
      simp only [generateNode]
      split
      · split
        · simpa using gext_trans h (gext_new_temp _)
        · simpa using gext_trans (gext_trans h (gext_new_temp _)) (gext_emit _ _)
      · simpa using h
  | .UnaryOp operator_token operand, st => by
      have h := generateNode_gext operand st
      simp only [generateNode]
      split
      · simpa using h
      · split
        · simpa using gext_trans (gext_trans h (gext_new_temp _)) (gext_emit _ _)
        · split
          · simpa using gext_trans (gext_trans h (gext_new_temp _)) (gext_emit _ _)
          · simpa using gext_trans h (gext_new_temp _)
  | .FunctionCall name_token arguments, st => by
      have h := generateArgs_gext arguments st
      simp only [generateNode]
      split
      · simpa using h
      · simpa using gext_trans (gext_trans h (gext_new_temp _)) (gext_emit _ _)

theorem generateList_gext : ∀ (l : List ASTNode) (st : GState),
    GExtends st (generateList l st)
  | [], st => by simpa [generateList] using gext_refl st
  | n :: ns, st => by
      simpa [generateList] using
        gext_trans (generateNode_gext n st) (generateList_gext ns _)

theorem generatePrints_gext : ∀ (l : List ASTNode) (st : GState),
    GExtends st (generatePrints l st)
  | [], st => by simpa [generatePrints] using gext_refl st
  | e :: es, st => by
      have h := generateNode_gext e st
      simp only [generatePrints]
      split
      · exact gext_trans (gext_trans h (gext_emit _ _)) (generatePrints_gext es _)
      · exact gext_trans h (generatePrints_gext es _)

theorem generateArgs_gext : ∀ (l : List ASTNode) (st : GState),
    GExtends st (generateArgs l st).2
  | [], st => by simpa [generateArgs] using gext_refl st
  | a :: as, st => by
      have h := generateNode_gext a st
      simp only [generateArgs]
      split
      · simpa using h
      · have h2 := gext_trans h (generateArgs_gext as _)
        split
        · simpa using h2
        · simpa using h2

theorem optGen_gext : ∀ (o : Option ASTNode) (st : GState), GExtends st (optGen o st)
  | some n, st => by simpa [optGen] using generateNode_gext n st
  | none, st => by simpa [optGen] using gext_refl st

theorem generateForTail_gext : ∀ (o : Option ASTNode) (s e : String) (st : GState),
    GExtends st (generateForTail o s e st).2
  | some c, s, e, st => by
      have h := generateNode_gext c st
      simp only [generateForTail]
      split
      · simpa using h
      · simpa using gext_trans (gext_trans h (gext_emit _ _)) (gext_emit _ _)
  | none, s, e, st => by
      simpa [generateForTail] using gext_trans (gext_emit st _) (gext_emit _ _)

end

theorem generateNode_code (n : ASTNode) (st : GState) :
    ((generateNode n st).2).code = st.code ++ codeDelta n st := by
  obtain ⟨d, hd⟩ := generateNode_gext n st
  simp [codeDelta, hd]

theorem codeDelta_eq_of {n : ASTNode} {st : GState} {d : List String}
    (h : ((generateNode n st).2).code = st.code ++ d) : codeDelta n st = d := by
  simp [codeDelta, h]

theorem optGen_code (o : Option ASTNode) (st : GState) :
    (optGen o st).code = st.code ++ optCodeDelta o st := by
  cases o with
  | some n => simpa [optGen, optCodeDelta] using generateNode_code n st
  | none => simp [optGen, optCodeDelta]

theorem emit_code (st : GState) (s : String) : (st.emit s).code = st.code ++ [s] := rfl

theorem new_label_fst (st : GState) : (new_label st).1 = labelName st.label_counter := rfl

theorem new_label_snd_code (st : GState) : ((new_label st).2).code = st.code := rfl

theorem new_label_snd_counter (st : GState) :
    ((new_label st).2).label_counter = st.label_counter + 1 := rfl

theorem new_temp_fst (st : GState) : (new_temp st).1 = tempName st.temp_counter := rfl

/-- Instruction text produced by the single condition-check site of a
`ForLoop` whose condition lowers to a temporary. -/
theorem generateForTail_code (c : ASTNode) (s e : String) (b stc : GState) (t : String)
    (hc : generateNode c b = (some t, stc)) :
    ((generateForTail (some c) s e b).2).code
      = b.code ++ codeDelta c b ++ ["IF_TRUE " ++ t ++ " GOTO " ++ s, "LABEL " ++ e] := by
  have h2 : stc.code = b.code ++ codeDelta c b := by
    have h3 := generateNode_code c b
    rw [hc] at h3
    exact h3
  simp [generateForTail, hc, GState.emit, h2]

theorem addErr_symtab (st : AState) (m : String) : (st.addErr m).symtab = st.symtab := rfl

mutual

theorem getExpressionType_symtab : ∀ (e : ASTNode) (st : AState),
    ((getExpressionType e st).2).symtab = st.symtab
  | .Literal v t tok, st => by simp [getExpressionType]
  | .Variable name_token, st => by
      simp only [getExpressionType]
      split <;> simp [AState.addErr]
  | .BinaryOp l op r, st => by
      have hl := getExpressionType_symtab l st
      have hr := getExpressionType_symtab r (getExpressionType l st).2
      simp only [getExpressionType]
      split_ifs <;> simp [AState.addErr, hr, hl]
  | .UnaryOp op e, st => by
      have h := getExpressionType_symtab e st
      simp only [getExpressionType]
      split_ifs <;> simp [AState.addErr, h]
  | .FunctionCall name_token arguments, st => by
      have h := getExpressionTypeList_symtab arguments st
      simp only [getExpressionType]
      split_ifs <;> simp [AState.addErr, h]
  | .Program s, st => by simp [getExpressionType, AState.addErr]
  | .VarDeclaration t iv, st => by simp [getExpressionType, AState.addErr]
  | .Assignment t v, st => by simp [getExpressionType, AState.addErr]
  | .IfStatement c t e, st => by simp [getExpressionType, AState.addErr]
  | .WhileLoop c b, st => by simp [getExpressionType, AState.addErr]
  | .ForLoop i c u b, st => by simp [getExpressionType, AState.addErr]
  | .PrintStatement e, st => by simp [getExpressionType, AState.addErr]
  | .InputStatement t, st => by simp [getExpressionType, AState.addErr]
  | .Block s, st => by simp [getExpressionType, AState.addErr]

theorem getExpressionTypeList_symtab : ∀ (l : List ASTNode) (st : AState),
    ((getExpressionTypeList l st).2).symtab = st.symtab
  | [], st => by simp [getExpressionTypeList]
  | e :: es, st => by
      have h1 := getExpressionType_symtab e st
      have h2 := getExpressionTypeList_symtab es (getExpressionType e st).2
      simp only [getExpressionTypeList]
      simp [h2, h1]

end

theorem declare_ok_rest {st : SymbolTable} {tok : Token} {ty : Ty} {st' : SymbolTable}
    (h : st.declare tok ty = .ok st') : st'.rest = st.rest := by
  rw [SymbolTable.declare] at h
  split_ifs at h
  cases h
  rfl

theorem analyzeExprList_symtab (l : List ASTNode) : ∀ (st : AState),
    ((analyzeExprList l st)).symtab = st.symtab := by
  induction l with
  | nil => intro st; simp [analyzeExprList]
  | cons e es ih =>
      intro st
      rw [analyzeExprList, ih, getExpressionType_symtab]

theorem analyzeForCond_symtab (o : Option ASTNode) (st : AState) :
    (analyzeForCond o st).symtab = st.symtab := by
  cases o with
  | none => rfl
  | some c =>
      simp only [analyzeForCond]
      split_ifs <;> simp [AState.addErr, getExpressionType_symtab]

theorem analyzeForUpdate_symtab (o : Option ASTNode) (st : AState) :
    (analyzeForUpdate o st).symtab = st.symtab := by
  cases o with
  | none => rfl
  | some u => simpa [analyzeForUpdate] using getExpressionType_symtab u st

theorem okLogs_init : okLogs GState.init := ⟨rfl, rfl⟩

theorem okLogs_emit {st : GState} (h : okLogs st) (s : String) : okLogs (st.emit s) := h

theorem okLogs_new_temp {st : GState} (h : okLogs st) : okLogs (new_temp st).2 := by
  obtain ⟨h1, h2⟩ := h
  exact ⟨by simp [new_temp, h1, List.range_succ], by simp [new_temp, h2]⟩

theorem okLogs_new_label {st : GState} (h : okLogs st) : okLogs (new_label st).2 := by
  obtain ⟨h1, h2⟩ := h
  exact ⟨by simp [new_label, h1], by simp [new_label, h2, List.range_succ]⟩

mutual

theorem generateNode_okLogs : ∀ (n : ASTNode) (st : GState),
    okLogs st → okLogs (generateNode n st).2
  | .Program statements, st => fun h => by
      simpa [generateNode] using generateList_okLogs statements st h
  | .VarDeclaration name_token (some iv), st => fun h => by
      have hg := generateNode_okLogs iv st h
      simp only [generateNode]
      split
      · simpa using okLogs_emit hg _
      · simpa using hg
  | .VarDeclaration name_token none, st => fun h => by
      simpa [generateNode] using h
  | .Assignment name_token value, st => fun h => by
      have hg := generateNode_okLogs value st h
      simp only [generateNode]
      split
      · simpa using okLogs_emit hg _
      · simpa using hg
  | .IfStatement condition then_branch (some els), st => fun h => by
      have hg := generateNode_okLogs condition st h
      simp only [generateNode]
      split
      · simpa using hg
      · simpa using
          okLogs_emit (generateNode_okLogs els _ (okLogs_emit (okLogs_emit
            (generateNode_okLogs then_branch _ (okLogs_emit
              (okLogs_new_label (okLogs_new_label hg)) _)) _) _)) _
  | .IfStatement condition then_branch none, st => fun h => by
      have hg := generateNode_okLogs condition st h
      simp only [generateNode]
      split
      · simpa using hg
      · simpa using
          okLogs_emit (generateNode_okLogs then_branch _
            (okLogs_emit (okLogs_new_label hg) _)) _
  | .WhileLoop condition body, st => fun h => by
      simp only [generateNode]
      split
      · simpa using generateNode_okLogs condition _
          (okLogs_emit (okLogs_new_label (okLogs_new_label h)) _)
      · simpa using
          okLogs_emit (okLogs_emit (generateNode_okLogs body _ (okLogs_emit
            (generateNode_okLogs condition _
              (okLogs_emit (okLogs_new_label (okLogs_new_label h)) _)) _)) _) _
  | .ForLoop init condition update body, st => fun h => by
      simpa [generateNode] using
        generateForTail_okLogs condition _ _ _
          (okLogs_emit (optGen_okLogs update _ (okLogs_emit (generateNode_okLogs body _
            (okLogs_emit (okLogs_emit (optGen_okLogs init _
              (okLogs_new_label (okLogs_new_label (okLogs_new_label
                (okLogs_new_label h))))) _) _)) _)) _)
  | .PrintStatement expressions, st => fun h => by
      simpa [generateNode] using generatePrints_okLogs expressions st h
  | .InputStatement variable_token, st => fun h => by
      simpa [generateNode] using okLogs_emit h _
  | .Block statements, st => fun h => by
      simpa [generateNode] using generateList_okLogs statements st h
  | .Literal value type token, st => fun h => by
      simpa [generateNode] using okLogs_emit (okLogs_new_temp h) _
  | .Variable name_token, st => fun h => by
      simpa [generateNode] using okLogs_emit (okLogs_new_temp h) _
  | .BinaryOp left operator_token right, st => fun h => by
      have hg := generateNode_okLogs right _ (generateNode_okLogs left st h)
      simp only [generateNode]
      split
      · split
        · simpa using okLogs_new_temp hg
        · simpa using okLogs_emit (okLogs_new_temp hg) _
      · simpa using hg
  | .UnaryOp operator_token operand, st => fun h => by
      have hg := generateNode_okLogs operand st h
      simp only [generateNode]
      split
      · simpa using hg
      · split_ifs <;> first
          | (simpa using okLogs_emit (okLogs_new_temp hg) _)
          | (simpa using okLogs_new_temp hg)
  | .FunctionCall name_token arguments, st => fun h => by
      have hg := generateArgs_okLogs arguments st h
      simp only [generateNode]
      split
      · simpa using hg
      · simpa using okLogs_emit (okLogs_new_temp hg) _

theorem generateList_okLogs : ∀ (l : List ASTNode) (st : GState),
    okLogs st → okLogs (generateList l st)
  | [], st => fun h => by simpa [generateList] using h
  | n :: ns, st => fun h => by
      simpa [generateList] using
        generateList_okLogs ns _ (generateNode_okLogs n st h)

theorem generatePrints_okLogs : ∀ (l : List ASTNode) (st : GState),
    okLogs st → okLogs (generatePrints l st)
  | [], st => fun h => by simpa [generatePrints] using h
  | e :: es, st => fun h => by
      have hg := generateNode_okLogs e st h
      simp only [generatePrints]
      split
      · exact generatePrints_okLogs es _ (okLogs_emit hg _)
      · exact generatePrints_okLogs es _ hg

theorem generateArgs_okLogs : ∀ (l : List ASTNode) (st : GState),
    okLogs st → okLogs (generateArgs l st).2
  | [], st => fun h => by simpa [generateArgs] using h
  | a :: as, st => fun h => by
      have hg := generateNode_okLogs a st h
      simp only [generateArgs]
      split
      · simpa using hg
      · have h2 := generateArgs_okLogs as _ hg
        split
        · simpa using h2
        · simpa using h2

theorem optGen_okLogs : ∀ (o : Option ASTNode) (st : GState),
    okLogs st → okLogs (optGen o st)
  | some n, st => fun h => by simpa [optGen] using generateNode_okLogs n st h
  | none, st => fun h => by simpa [optGen] using h

theorem generateForTail_okLogs : ∀ (o : Option ASTNode) (s e : String) (st : GState),
    okLogs st → okLogs (generateForTail o s e st).2
  | some c, s, e, st => fun h => by
      have hg := generateNode_okLogs c st h
      simp only [generateForTail]
      split
      · simpa using hg
      · simpa using okLogs_emit (okLogs_emit hg _) _
  | none, s, e, st => fun h => by
      simpa [generateForTail] using okLogs_emit (okLogs_emit h _) _

end

theorem aext_refl (st : AState) : AErrExtends st st := ⟨[], by simp⟩

theorem aext_trans {a b c : AState} (h1 : AErrExtends a b) (h2 : AErrExtends b c) :
    AErrExtends a c := by
  obtain ⟨d1, h1⟩ := h1
  obtain ⟨d2, h2⟩ := h2
  exact ⟨d1 ++ d2, by simp [h2, h1]⟩

theorem aext_addErr (st : AState) (m : String) : AErrExtends st (st.addErr m) :=
  ⟨[m], rfl⟩

theorem aext_symtab (st : AState) (x : SymbolTable) :
    AErrExtends st { st with symtab := x } := ⟨[], by simp⟩

theorem aext_symtab_of {a b : AState} (h : AErrExtends a b) (x : SymbolTable) :
    AErrExtends a { b with symtab := x } :=
  aext_trans h (aext_symtab b x)

mutual

theorem getExpressionType_aext : ∀ (e : ASTNode) (st : AState),
    AErrExtends st ((getExpressionType e st).2)
  | .Literal v t tok, st => by simpa [getExpressionType] using aext_refl st
  | .Variable name_token, st => by
      simp only [getExpressionType]
      split
      · simpa using aext_refl st
      · simpa using aext_addErr st _
  | .BinaryOp l op r, st => by
      have h := aext_trans (getExpressionType_aext l st) (getExpressionType_aext r _)
      simp only [getExpressionType]
      split_ifs <;> first
        | (exact h)
        | (simpa using aext_trans h (aext_addErr _ _))
  | .UnaryOp op e, st => by
      have h := getExpressionType_aext e st
      simp only [getExpressionType]
      split_ifs <;> first
        | (exact h)
        | (simpa using aext_trans h (aext_addErr _ _))
  | .FunctionCall name_token arguments, st => by
      have h := getExpressionTypeList_aext arguments st
      simp only [getExpressionType]
      split_ifs <;> first
        | (exact h)
        | (simpa using aext_trans h (aext_addErr _ _))
  | .Program s, st => by simpa [getExpressionType] using aext_addErr st _
  | .VarDeclaration t iv, st => by simpa [getExpressionType] using aext_addErr st _
  | .Assignment t v, st => by simpa [getExpressionType] using aext_addErr st _
  | .IfStatement c t e, st => by simpa [getExpressionType] using aext_addErr st _
  | .WhileLoop c b, st => by simpa [getExpressionType] using aext_addErr st _
  | .ForLoop i c u b, st => by simpa [getExpressionType] using aext_addErr st _
  | .PrintStatement e, st => by simpa [getExpressionType] using aext_addErr st _
  | .InputStatement t, st => by simpa [getExpressionType] using aext_addErr st _
  | .Block s, st => by simpa [getExpressionType] using aext_addErr st _

theorem getExpressionTypeList_aext : ∀ (l : List ASTNode) (st : AState),
    AErrExtends st ((getExpressionTypeList l st).2)
  | [], st => by simpa [getExpressionTypeList] using aext_refl st
  | e :: es, st => by
      simpa [getExpressionTypeList] using
        aext_trans (getExpressionType_aext e st) (getExpressionTypeList_aext es _)

theorem analyzeNode_aext : ∀ (n : ASTNode) (st : AState),
    AErrExtends st (analyzeNode n st)
  | .Program statements, st => by
      simpa [analyzeNode] using analyzeList_aext statements st
  | .VarDeclaration name_token (some iv), st => by
      have h := getExpressionType_aext iv st
      simp only [analyzeNode]
      by_cases he : (getExpressionType iv st).1 = Ty.error
      · simpa [he] using h
      · simp only [he, ne_eq, not_false_eq_true, if_true, if_pos]
        split
        · exact aext_symtab_of h _
        · exact aext_trans h (aext_addErr _ _)
  | .VarDeclaration name_token none, st => by
      simp only [analyzeNode]
      split
      · exact aext_symtab st _
      · exact aext_addErr st _
  | .Assignment name_token value, st => by
      simp only [analyzeNode]
      split
      · exact aext_addErr st _
      · have h := getExpressionType_aext value st
        split_ifs <;> first
          | (exact h)
          | (simpa using aext_trans h (aext_addErr _ _))
  | .IfStatement condition then_branch else_branch, st => by
      have h := getExpressionType_aext condition st
      simp only [analyzeNode]
      split_ifs <;> first
        | (exact aext_trans (aext_trans h (analyzeNode_aext then_branch _))
            (analyzeElse_aext else_branch _))
        | (exact aext_trans (aext_trans (aext_trans h (aext_addErr _ _))
            (analyzeNode_aext then_branch _)) (analyzeElse_aext else_branch _))
  | .WhileLoop condition body, st => by
      have h := getExpressionType_aext condition st
      simp only [analyzeNode]
      split_ifs <;> first
        | (exact aext_trans h (analyzeNode_aext body _))
        | (exact aext_trans (aext_trans h (aext_addErr _ _)) (analyzeNode_aext body _))
  | .ForLoop init condition update body, st => by
      simp only [analyzeNode]
      exact aext_symtab_of
        (aext_trans (aext_trans (aext_trans (aext_trans (aext_symtab st _)
          (analyzeForInit_aext init _)) (analyzeForCond_aext condition _))
          (analyzeForUpdate_aext update _)) (analyzeNode_aext body _)) _
  | .PrintStatement expressions, st => by
      simpa [analyzeNode] using analyzeExprList_aext expressions st
  | .InputStatement variable_token, st => by
      simp only [analyzeNode]
      split
      · exact aext_refl st
      · exact aext_addErr st _
  | .Block statements, st => by
      simp only [analyzeNode]
      exact aext_symtab_of (aext_trans (aext_symtab st _) (analyzeList_aext statements _)) _
  | .BinaryOp l o r, st => by simpa [analyzeNode] using aext_refl st
  | .UnaryOp o e, st => by simpa [analyzeNode] using aext_refl st
  | .Literal v t tok, st => by simpa [analyzeNode] using aext_refl st
  | .Variable t, st => by simpa [analyzeNode] using aext_refl st
  | .FunctionCall t a, st => by simpa [analyzeNode] using aext_refl st

theorem analyzeList_aext : ∀ (l : List ASTNode) (st : AState),
    AErrExtends st (analyzeList l st)
  | [], st => by simpa [analyzeList] using aext_refl st
  | n :: ns, st => by
      simpa [analyzeList] using
        aext_trans (analyzeNode_aext n st) (analyzeList_aext ns _)

theorem analyzeExprList_aext : ∀ (l : List ASTNode) (st : AState),
    AErrExtends st (analyzeExprList l st)
  | [], st => by simpa [analyzeExprList] using aext_refl st
  | e :: es, st => by
      simpa [analyzeExprList] using
        aext_trans (getExpressionType_aext e st) (analyzeExprList_aext es _)

theorem analyzeElse_aext : ∀ (o : Option ASTNode) (st : AState),
    AErrExtends st (analyzeElse o st)
  | some e, st => by simpa [analyzeElse] using analyzeNode_aext e st
  | none, st => aext_refl st

theorem analyzeForInit_aext : ∀ (o : Option ASTNode) (st : AState),
    AErrExtends st (analyzeForInit o st)
  | some i, st => by simpa [analyzeForInit] using analyzeNode_aext i st
  | none, st => aext_refl st

theorem analyzeForCond_aext : ∀ (o : Option ASTNode) (st : AState),
    AErrExtends st (analyzeForCond o st)
  | some c, st => by
      have h := getExpressionType_aext c st
      simp only [analyzeForCond]
      split_ifs <;> first
        | (exact h)
        | (simpa using aext_trans h (aext_addErr _ _))
  | none, st => aext_refl st

theorem analyzeForUpdate_aext : ∀ (o : Option ASTNode) (st : AState),
    AErrExtends st (analyzeForUpdate o st)
  | some u, st => by simpa [analyzeForUpdate] using getExpressionType_aext u st
  | none, st => aext_refl st

end

mutual

theorem analyzeNode_rest : ∀ (n : ASTNode) (st : AState),
    ((analyzeNode n st).symtab).rest = st.symtab.rest
  | .Program statements, st => by
      simpa [analyzeNode] using analyzeList_rest statements st
  | .VarDeclaration name_token (some iv), st => by
      have hq := getExpressionType_symtab iv st
      simp only [analyzeNode]
      by_cases he : (getExpressionType iv st).1 = Ty.error
      · simp [he, hq]
      · simp only [he, ne_eq, not_false_eq_true, if_true, if_pos]
        split
        · next symtab' heq => simp [declare_ok_rest heq, hq]
        · next e heq => simp [AState.addErr, hq]
  | .VarDeclaration name_token none, st => by
      simp only [analyzeNode]
      split
      · next symtab' heq => simp [declare_ok_rest heq]
      · next e heq => simp [AState.addErr]
  | .Assignment name_token value, st => by
      have hq := getExpressionType_symtab value st
      simp only [analyzeNode]
      split
      · simp [AState.addErr]
      · split_ifs <;> simp [AState.addErr, hq]
  | .IfStatement condition then_branch else_branch, st => by
      have hc := getExpressionType_symtab condition st
      simp only [analyzeNode]
      split_ifs
      · rw [analyzeElse_rest else_branch _, analyzeNode_rest then_branch _,
            addErr_symtab, hc]
      · rw [analyzeElse_rest else_branch _, analyzeNode_rest then_branch _, hc]
  | .WhileLoop condition body, st => by
      have hc := getExpressionType_symtab condition st
      simp only [analyzeNode]
      split_ifs
      · rw [analyzeNode_rest body _, addErr_symtab, hc]
      · rw [analyzeNode_rest body _, hc]
  | .ForLoop init condition update body, st => by
      have h5 : (analyzeNode body (analyzeForUpdate update (analyzeForCond condition
          (analyzeForInit init { st with symtab := st.symtab.enter_scope })))).symtab.rest
          = st.symtab.top :: st.symtab.rest := by
        rw [analyzeNode_rest body _, analyzeForUpdate_symtab, analyzeForCond_symtab,
            analyzeForInit_rest init _]
        rfl
      simp [analyzeNode, SymbolTable.exit_scope, h5]
  | .PrintStatement expressions, st => by
      simp [analyzeNode, analyzeExprList_symtab]
  | .InputStatement variable_token, st => by
      simp only [analyzeNode]
      split <;> simp [AState.addErr]
  | .Block statements, st => by
      have h5 : (analyzeList statements { st with symtab := st.symtab.enter_scope }).symtab.rest
          = st.symtab.top :: st.symtab.rest := by
        rw [analyzeList_rest statements _]
        rfl
      simp [analyzeNode, SymbolTable.exit_scope, h5]
  | .BinaryOp l o r, st => by simp [analyzeNode]
  | .UnaryOp o e, st => by simp [analyzeNode]
  | .Literal v t tok, st => by simp [analyzeNode]
  | .Variable t, st => by simp [analyzeNode]
  | .FunctionCall t a, st => by simp [analyzeNode]

theorem analyzeList_rest : ∀ (l : List ASTNode) (st : AState),
    ((analyzeList l st).symtab).rest = st.symtab.rest
  | [], st => by simp [analyzeList]
  | n :: ns, st => by
      rw [analyzeList, analyzeList_rest ns _, analyzeNode_rest n _]

theorem analyzeElse_rest : ∀ (o : Option ASTNode) (st : AState),
    ((analyzeElse o st).symtab).rest = st.symtab.rest
  | some e, st => by simpa [analyzeElse] using analyzeNode_rest e st
  | none, st => rfl

theorem analyzeForInit_rest : ∀ (o : Option ASTNode) (st : AState),
    ((analyzeForInit o st).symtab).rest = st.symtab.rest
  | some i, st => by simpa [analyzeForInit] using analyzeNode_rest i st
  | none, st => rfl

end

/-! ## The claims -/

/-- C2: for every operator in `{+,-,*,/}` the result type computed by
`Type.get_result_type` is exactly: error if either operand is error; string
for string+string under `+`; string when exactly one operand is string under
`+`; for two numeric operands, float iff either is float, else int; and
error in every remaining combination (`arithResultSpec` restates the claim's
case analysis word for word). -/
theorem c2_arith_result_type (op : String)
    (hop : op ∈ (["+", "-", "*", "/"] : List String)) :
    ∀ l r : Ty, Ty.get_result_type l r op = arithResultSpec l r op := by
  simp only [List.mem_cons, List.not_mem_nil, or_false] at hop
  rcases hop with rfl | rfl | rfl | rfl <;> decide

/-- Witness for C2 at `op = "+"`, `l = int`, `r = float`. -/
theorem c2_witness :
    ("+" ∈ (["+", "-", "*", "/"] : List String))
      ∧ Ty.get_result_type Ty.int Ty.float "+" = arithResultSpec Ty.int Ty.float "+" :=
  ⟨by decide, c2_arith_result_type "+" (by decide) Ty.int Ty.float⟩

/-- C6: `declare` fails (with the DuplicateDeclaration diagnostic) exactly
when the name already occurs in the innermost scope; otherwise — in
particular when the name occurs only in an enclosing scope — it succeeds and
shadows, inserting into the innermost scope with no diagnostic. -/
theorem c6_declare_duplicate_iff (st : SymbolTable) (name : Token) (ty : Ty) :
    (st.top.containsName name.value = true →
      st.declare name ty =
        .error ⟨"Variable '" ++ name.value ++ "' ya declarada en este ámbito",
                some name.line, some name.column⟩)
    ∧ (st.top.containsName name.value = false →
      st.declare name ty = .ok ⟨(name.value, ty) :: st.top, st.rest⟩) := by
  constructor <;> intro h <;> simp [SymbolTable.declare, h]

/-- Witness for C6: redeclaring `x` in its own scope fails; declaring `y`,
present only in the enclosing scope, succeeds (shadowing). -/
theorem c6_witness :
    SymbolTable.declare ⟨[("x", Ty.int)], []⟩ ⟨"x", 3, 4⟩ Ty.float =
        .error ⟨"Variable 'x' ya declarada en este ámbito", some 3, some 4⟩
    ∧ SymbolTable.declare ⟨[("x", Ty.int)], [[("y", Ty.int)]]⟩ ⟨"y", 5, 6⟩ Ty.int =
        .ok ⟨[("y", Ty.int), ("x", Ty.int)], [[("y", Ty.int)]]⟩ :=
  ⟨(c6_declare_duplicate_iff _ _ _).1 (by decide),
   (c6_declare_duplicate_iff _ _ _).2 (by decide)⟩

/-- C9: `analyze` reports success exactly when the diagnostics list is empty,
and the traversal is total and only ever appends to the ordered diagnostics
list — every `SemanticError` raised by `declare`/`lookup` (the `Except.error`
results) is converted into a list entry at its own call site, so nothing
propagates past the analyzer boundary. -/
theorem c9_analyze_success_iff (ast : ASTNode) :
    ((analyze ast).1 = true ↔ (analyze ast).2 = [])
    ∧ ∀ st : AState, ∃ d, (analyzeNode ast st).errors = st.errors ++ d := by
  constructor
  · simp [analyze, List.length_eq_zero]
  · intro st
    exact analyzeNode_aext ast st

/-- C10: analyzing an InputStatement looks its target up: if the name is
declared in some scope the state is returned unchanged (no diagnostic, same
symbol table); if it is declared nowhere, exactly one UndeclaredVariable
diagnostic is appended. -/
theorem c10_input_statement (variable_token : Token) (st : AState) :
    (∀ t, findInScopes st.symtab.allScopes variable_token.value = some t →
        analyzeNode (.InputStatement variable_token) st = st)
    ∧ (findInScopes st.symtab.allScopes variable_token.value = none →
        analyzeNode (.InputStatement variable_token) st
          = { st with errors := st.errors ++ [(undeclaredError variable_token).toStr] }) := by
  constructor
  · intro t h
    simp [analyzeNode, SymbolTable.lookup, SymbolTable.allScopes] at h ⊢
    simp [h]
  · intro h
    simp [analyzeNode, SymbolTable.lookup, SymbolTable.allScopes] at h ⊢
    simp [h, AState.addErr, undeclaredError]

/-- C5: for an Assignment whose target is declared with a non-error type and
whose right-hand side types to a non-error type, the analyzer accepts
(appends nothing beyond what the expression's own analysis appended) iff the
types are equal or the target is float and the source int; otherwise it
appends exactly one TypeMismatchAssignment diagnostic. -/
theorem c5_assignment_check (name_token : Token) (value : ASTNode) (st st1 : AState)
    (var_type expr_type : Ty)
    (hlook : st.symtab.lookup name_token = .ok var_type)
    (hvar : var_type ≠ Ty.error)
    (hexpr : getExpressionType value st = (expr_type, st1))
    (hexprty : expr_type ≠ Ty.error) :
    (var_type = expr_type ∨ (var_type = Ty.float ∧ expr_type = Ty.int) →
        analyzeNode (.Assignment name_token value) st = st1)
    ∧ (¬(var_type = expr_type ∨ (var_type = Ty.float ∧ expr_type = Ty.int)) →
        analyzeNode (.Assignment name_token value) st
          = st1.addErr ("Error de tipo en línea " ++ natStr name_token.line
              ++ ", col " ++ natStr name_token.column
              ++ ": no se puede asignar tipo '" ++ expr_type.str ++ "' a variable '"
              ++ name_token.value ++ "' de tipo '" ++ var_type.str ++ "'")) := by
  have hcompat : is_assignment_compatible var_type expr_type = true
      ↔ (var_type = expr_type ∨ (var_type = Ty.float ∧ expr_type = Ty.int)) := by
    cases var_type <;> cases expr_type <;> simp [is_assignment_compatible]
  constructor <;> intro hc
  · simp [analyzeNode, hlook, hexpr, hvar, hexprty, hcompat.mpr hc]
  · have hfalse : is_assignment_compatible var_type expr_type = false := by
      cases hcb : is_assignment_compatible var_type expr_type
      · rfl
      · exact absurd (hcompat.mp hcb) hc
    simp [analyzeNode, hlook, hexpr, hvar, hexprty, hfalse]

/-- Witness for C5: `x : float`, assigned an int literal — accepted by the
int→float widening with no diagnostic appended. -/
theorem c5_witness :
    SymbolTable.lookup ⟨[("x", Ty.float)], []⟩ ⟨"x", 2, 1⟩ = .ok Ty.float
    ∧ analyzeNode (ASTNode.Assignment ⟨"x", 2, 1⟩
          (ASTNode.Literal (LitValue.vint 1) Ty.int ⟨"1", 2, 5⟩))
        ⟨⟨[("x", Ty.float)], []⟩, []⟩ = ⟨⟨[("x", Ty.float)], []⟩, []⟩ :=
  ⟨by rfl,
   (c5_assignment_check ⟨"x", 2, 1⟩ _ _ _ Ty.float Ty.int
      (by rfl) (by decide) (by rfl) (by decide)).1 (by decide)⟩

/-- C1 counterexample: in `c1Program` the variable `x` is declared with an
error-typed initializer (the undeclared `y`); contrary to the claim, `x` is
NOT declared (the symbol table stays empty), and the later use of `x` DOES
produce an UndeclaredVariable diagnostic. -/
theorem c1_counterexample :
    analyze c1Program =
      (false,
       ["Error semántico en línea 1, columna 9: Variable 'y' no declarada",
        "Error semántico en línea 2, columna 1: Variable 'x' no declarada"])
    ∧ (analyzeNode (ASTNode.VarDeclaration ⟨"x", 1, 5⟩
          (some (ASTNode.Variable ⟨"y", 1, 9⟩))) AState.init).symtab = SymbolTable.init := by
  constructor <;> decide

/-- C1 (amended): a VarDeclaration whose initializer resolves to the error
type declares nothing: the analyzer returns exactly the state left by the
initializer's analysis, the symbol table is unchanged, and a later lookup of
the name fails with UndeclaredVariable unless the name is declared in some
enclosing scope. -/
theorem c1_error_initializer_skips_declaration (name_token : Token) (iv : ASTNode)
    (st : AState) (herr : (getExpressionType iv st).1 = Ty.error) :
    analyzeNode (.VarDeclaration name_token (some iv)) st = (getExpressionType iv st).2
    ∧ (analyzeNode (.VarDeclaration name_token (some iv)) st).symtab = st.symtab
    ∧ (findInScopes st.symtab.allScopes name_token.value = none →
        (analyzeNode (.VarDeclaration name_token (some iv)) st).symtab.lookup name_token
          = .error (undeclaredError name_token)) := by
  have h1 : analyzeNode (.VarDeclaration name_token (some iv)) st
      = (getExpressionType iv st).2 := by
    simp [analyzeNode, herr]
  refine ⟨h1, ?_, ?_⟩
  · rw [h1, getExpressionType_symtab]
  · intro hnone
    rw [h1, getExpressionType_symtab]
    simp [SymbolTable.allScopes] at hnone
    simp [SymbolTable.lookup, SymbolTable.allScopes, hnone, undeclaredError]

/-- Witness for the amended C1 at the concrete declaration from
`c1Program`. -/
theorem c1_witness :
    (getExpressionType (ASTNode.Variable ⟨"y", 1, 9⟩) AState.init).1 = Ty.error
    ∧ (analyzeNode (ASTNode.VarDeclaration ⟨"x", 1, 5⟩
          (some (ASTNode.Variable ⟨"y", 1, 9⟩))) AState.init
        = (getExpressionType (ASTNode.Variable ⟨"y", 1, 9⟩) AState.init).2
      ∧ (analyzeNode (ASTNode.VarDeclaration ⟨"x", 1, 5⟩
          (some (ASTNode.Variable ⟨"y", 1, 9⟩))) AState.init).symtab = AState.init.symtab
      ∧ (findInScopes AState.init.symtab.allScopes "x" = none →
          (analyzeNode (ASTNode.VarDeclaration ⟨"x", 1, 5⟩
              (some (ASTNode.Variable ⟨"y", 1, 9⟩))) AState.init).symtab.lookup ⟨"x", 1, 5⟩
            = .error (undeclaredError ⟨"x", 1, 5⟩))) :=
  ⟨by decide, c1_error_initializer_skips_declaration ⟨"x", 1, 5⟩ _ _ (by decide)⟩

/-- C7: analyzing a ForLoop pushes a scope before init/condition/update/body
and pops it afterwards: the symbol table (hence the scope-stack depth) is
restored exactly to its pre-loop value, so a name declared only inside the
loop (e.g. by its init part) is not resolvable afterwards — a later lookup
fails with UndeclaredVariable unless the name is declared in an enclosing
scope. -/
theorem c7_for_loop_scope (init condition update : Option ASTNode) (body : ASTNode)
    (st : AState) :
    (analyzeNode (.ForLoop init condition update body) st).symtab = st.symtab
    ∧ (∀ name : Token, findInScopes st.symtab.allScopes name.value = none →
        (analyzeNode (.ForLoop init condition update body) st).symtab.lookup name
          = .error (undeclaredError name)) := by
  have hmain : (analyzeNode (.ForLoop init condition update body) st).symtab = st.symtab := by
    have h5 : (analyzeNode body (analyzeForUpdate update (analyzeForCond condition
        (analyzeForInit init { st with symtab := st.symtab.enter_scope })))).symtab.rest
        = st.symtab.top :: st.symtab.rest := by
      rw [analyzeNode_rest body _, analyzeForUpdate_symtab, analyzeForCond_symtab,
          analyzeForInit_rest init _]
      rfl
    simp [analyzeNode, SymbolTable.exit_scope, h5]
  refine ⟨hmain, fun name hnone => ?_⟩
  rw [hmain]
  simp [SymbolTable.allScopes] at hnone
  simp [SymbolTable.lookup, SymbolTable.allScopes, hnone, undeclaredError]

/-- Witness for C7: a loop declaring `i` in its init part restores the empty
global scope, and `i` is undeclared after the loop. -/
theorem c7_witness :
    (analyzeNode (ASTNode.ForLoop
        (some (ASTNode.VarDeclaration ⟨"i", 1, 6⟩
          (some (ASTNode.Literal (LitValue.vint 1) Ty.int ⟨"1", 1, 10⟩))))
        (some (ASTNode.Variable ⟨"i", 1, 13⟩))
        none
        (ASTNode.Block [])) AState.init).symtab = AState.init.symtab
    ∧ (analyzeNode (ASTNode.ForLoop
        (some (ASTNode.VarDeclaration ⟨"i", 1, 6⟩
          (some (ASTNode.Literal (LitValue.vint 1) Ty.int ⟨"1", 1, 10⟩))))
        (some (ASTNode.Variable ⟨"i", 1, 13⟩))
        none
        (ASTNode.Block [])) AState.init).symtab.lookup ⟨"i", 2, 1⟩
        = .error (undeclaredError ⟨"i", 2, 1⟩) :=
  ⟨(c7_for_loop_scope _ _ _ _ _).1,
   (c7_for_loop_scope _ _ _ _ _).2 ⟨"i", 2, 1⟩ (by decide)⟩

/-- C8: generation is deterministic — it is a pure function of the AST run
from the fixed fresh-generator state (both counters zero), so two runs give
identical instruction lists — and the ghost allocation logs show that
temporary ids and label ids are consumed exactly in the order 0, 1, 2, …,
i.e. strictly increasing from zero in each run (temporaries named `t<id>`,
labels `L<id>` by `new_temp`/`new_label`). -/
theorem c8_generator_determinism (ast : ASTNode) :
    generate ast = generate ast
    ∧ ((generateNode ast GState.init).2).tlog
        = List.range ((generateNode ast GState.init).2).temp_counter
    ∧ ((generateNode ast GState.init).2).llog
        = List.range ((generateNode ast GState.init).2).label_counter :=
  ⟨rfl, (generateNode_okLogs ast GState.init okLogs_init).1,
        (generateNode_okLogs ast GState.init okLogs_init).2⟩

/-- C3: lowering an IfStatement whose condition lowers to temporary `t`
(leaving generator state `st1`): with an else branch, two distinct fresh
labels `Lelse = L<lc>` and `Lend = L<lc+1>` are allocated and the emitted
sequence is exactly `<cond>; IF_FALSE t GOTO Lelse; <then>; GOTO Lend;
LABEL Lelse; <else>; LABEL Lend` — exactly one IF_FALSE, one unconditional
GOTO and two LABELs of the statement's own; without an else branch a single
fresh label serves as both the else target and the end label. -/
theorem c3_if_statement_shape (condition then_branch els : ASTNode) (st st1 : GState)
    (t : String) (hc : generateNode condition st = (some t, st1)) :
    labelName st1.label_counter ≠ labelName (st1.label_counter + 1)
    ∧ codeDelta (.IfStatement condition then_branch (some els)) st
        = codeDelta condition st
          ++ ["IF_FALSE " ++ t ++ " GOTO " ++ labelName st1.label_counter]
          ++ codeDelta then_branch (ifThenState t st1)
          ++ ["GOTO " ++ labelName (st1.label_counter + 1),
              "LABEL " ++ labelName st1.label_counter]
          ++ codeDelta els (ifElseState t st1 then_branch)
          ++ ["LABEL " ++ labelName (st1.label_counter + 1)]
    ∧ codeDelta (.IfStatement condition then_branch none) st
        = codeDelta condition st
          ++ ["IF_FALSE " ++ t ++ " GOTO " ++ labelName st1.label_counter]
          ++ codeDelta then_branch (ifThenStateNoElse t st1)
          ++ ["LABEL " ++ labelName st1.label_counter] := by
  have hst1 : st1.code = st.code ++ codeDelta condition st := by
    have h3 := generateNode_code condition st
    rw [hc] at h3
    exact h3
  refine ⟨labelName_ne (by omega), ?_, ?_⟩
  · apply codeDelta_eq_of
    simp [generateNode, hc, ifThenState, ifElseState, emit_code, new_label_fst,
          new_label_snd_code, new_label_snd_counter, generateNode_code, hst1,
          List.append_assoc]
  · apply codeDelta_eq_of
    simp [generateNode, hc, ifThenStateNoElse, emit_code, new_label_fst,
          new_label_snd_code, new_label_snd_counter, generateNode_code, hst1,
          List.append_assoc]

/-- Witness for C3: condition `1` (one temporary), then/else branches are
input statements. -/
theorem c3_witness :
    labelName 0 ≠ labelName 1
    ∧ codeDelta (ASTNode.IfStatement
          (ASTNode.Literal (LitValue.vint 1) Ty.int ⟨"1", 1, 4⟩)
          (ASTNode.InputStatement ⟨"a", 2, 1⟩)
          (some (ASTNode.InputStatement ⟨"b", 3, 1⟩))) GState.init
        = ["ASSIGN t0, 1", "IF_FALSE t0 GOTO L0", "INPUT a",
           "GOTO L1", "LABEL L0", "INPUT b", "LABEL L1"]
    ∧ codeDelta (ASTNode.IfStatement
          (ASTNode.Literal (LitValue.vint 1) Ty.int ⟨"1", 1, 4⟩)
          (ASTNode.InputStatement ⟨"a", 2, 1⟩) none) GState.init
        = ["ASSIGN t0, 1", "IF_FALSE t0 GOTO L0", "INPUT a", "LABEL L0"] :=
  c3_if_statement_shape
    (ASTNode.Literal (LitValue.vint 1) Ty.int ⟨"1", 1, 4⟩)
    (ASTNode.InputStatement ⟨"a", 2, 1⟩)
    (ASTNode.InputStatement ⟨"b", 3, 1⟩)
    GState.init ⟨["ASSIGN t0, 1"], 1, 0, [0], []⟩ "t0" (by rfl)

/-- C4: lowering a ForLoop allocates the four labels start/cond/update/end
(ids `lc` … `lc+3`, logged in that order, pairwise distinct), lowers the
init part exactly once, and emits exactly `<init>; GOTO cond; LABEL start;
<body>; LABEL update; <update>; LABEL cond; <cond>; IF_TRUE t GOTO start;
LABEL end` — the update code sits between the body and the single
condition-check site reached both on entry and on the back-edge. -/
theorem c4_for_loop_shape (init update : Option ASTNode) (c body : ASTNode)
    (st stc : GState) (t : String)
    (hc : generateNode c (forPreCondState init update body st) = (some t, stc)) :
    ([labelName st.label_counter, labelName (st.label_counter + 1),
      labelName (st.label_counter + 2), labelName (st.label_counter + 3)].Nodup)
    ∧ (forLabelsState st).llog
        = st.llog ++ [st.label_counter, st.label_counter + 1,
                      st.label_counter + 2, st.label_counter + 3]
    ∧ codeDelta (.ForLoop init (some c) update body) st
        = optCodeDelta init (forLabelsState st)
          ++ ["GOTO " ++ labelName (st.label_counter + 1),
              "LABEL " ++ labelName st.label_counter]
          ++ codeDelta body (forPreBodyState init st)
          ++ ["LABEL " ++ labelName (st.label_counter + 2)]
          ++ optCodeDelta update (forPreUpdateState init body st)
          ++ ["LABEL " ++ labelName (st.label_counter + 1)]
          ++ codeDelta c (forPreCondState init update body st)
          ++ ["IF_TRUE " ++ t ++ " GOTO " ++ labelName st.label_counter,
              "LABEL " ++ labelName (st.label_counter + 3)] := by
  have hinj : ∀ m n : Nat, labelName m = labelName n ↔ m = n :=
    fun m n => ⟨labelName_injective, fun h => by rw [h]⟩
  refine ⟨?_, ?_, ?_⟩
  · simp only [List.nodup_cons, List.mem_cons, List.not_mem_nil, or_false,
      List.nodup_nil, and_true, hinj, not_or, not_false_eq_true]
    omega
  · simp [forLabelsState, new_label, List.append_assoc, Nat.add_assoc]
  · apply codeDelta_eq_of
    have hfold : generateNode (ASTNode.ForLoop init (some c) update body) st
        = generateForTail (some c) (new_label st).1
            (new_label (new_label (new_label (new_label st).2).2).2).1
            (forPreCondState init update body st) := rfl
    rw [hfold, generateForTail_code c _ _ _ stc t hc]
    simp [forPreCondState, forPreUpdateState, forPreBodyState, forLabelsState,
          emit_code, optGen_code, generateNode_code, new_label_snd_code,
          new_label_fst, new_label_snd_counter, List.append_assoc, Nat.add_assoc]

/-- Witness for C4: init declares `j = 1`, empty body and update slot,
condition `j` (one temporary). -/
theorem c4_witness :
    (["L0", "L1", "L2", "L3"] : List String).Nodup
    ∧ (forLabelsState GState.init).llog = [0, 1, 2, 3]
    ∧ codeDelta (ASTNode.ForLoop
          (some (ASTNode.VarDeclaration ⟨"j", 1, 6⟩
            (some (ASTNode.Literal (LitValue.vint 1) Ty.int ⟨"1", 1, 10⟩))))
          (some (ASTNode.Variable ⟨"j", 1, 13⟩))
          none
          (ASTNode.Block [])) GState.init
        = ["ASSIGN t0, 1", "ASSIGN j, t0", "GOTO L1", "LABEL L0", "LABEL L2",
           "LABEL L1", "ASSIGN t1, j", "IF_TRUE t1 GOTO L0", "LABEL L3"] :=
  c4_for_loop_shape
    (some (ASTNode.VarDeclaration ⟨"j", 1, 6⟩
      (some (ASTNode.Literal (LitValue.vint 1) Ty.int ⟨"1", 1, 10⟩))))
    none
    (ASTNode.Variable ⟨"j", 1, 13⟩)
    (ASTNode.Block [])
    GState.init
    ⟨["ASSIGN t0, 1", "ASSIGN j, t0", "GOTO L1", "LABEL L0", "LABEL L2",
      "LABEL L1", "ASSIGN t1, j"], 2, 4, [0, 1], [0, 1, 2, 3]⟩
    "t1" (by rfl)

/-- Witness for C10: declared target leaves the state untouched; undeclared
target appends exactly the UndeclaredVariable diagnostic. -/
theorem c10_witness :
    analyzeNode (ASTNode.InputStatement ⟨"x", 2, 1⟩)
        ⟨⟨[("x", Ty.int)], []⟩, []⟩ = ⟨⟨[("x", Ty.int)], []⟩, []⟩
    ∧ analyzeNode (ASTNode.InputStatement ⟨"z", 2, 1⟩) AState.init
        = { AState.init with
            errors := AState.init.errors ++ [(undeclaredError ⟨"z", 2, 1⟩).toStr] } :=
  ⟨(c10_input_statement ⟨"x", 2, 1⟩ _).1 Ty.int (by decide),
   (c10_input_statement ⟨"z", 2, 1⟩ _).2 (by decide)⟩


end MiniLang
